import Mathlib

/-!
Shallow embedding of the forward-chaining inference engine of the
Huella_Carbono repository (`motor_inferencia.py`, with the rule-provider
boundary of `firebase_config.py`).

Modelling conventions:
* Python scalar values that occur as fact values / condition targets are
  modelled by the closed sum `Value` (integers stand in for Python
  numbers; the repository only ever uses integer thresholds and integer
  emission figures in rules).  Python `==` on these scalars is `pyEq`
  (total, cross-type equality is `false` except bool/number coercion and
  `None == None`), while Python `<` / `>` is the fallible `pyCmp`
  (raises `TypeError` — modelled as `Except.error ()` — on str/number,
  `None`, and other incomparable pairs).
* Python dicts that the engine only reads in insertion order are
  modelled as association lists (`List (String × Value)` etc.); Python
  3.7+ dict iteration order is insertion order.
* Python `str.replace` (replace **all** occurrences) and `str.endswith`
  are re-implemented structurally (`pyReplace`, `pyEndsWith`) so that
  every definition kernel-evaluates on concrete input.
* `print` calls and the best-effort Firebase persistence at the end of
  `ejecutar_inferencia` are external side effects and are not part of
  the model; nothing in the engine's state depends on them.
* The `hechos_relevantes` list computed at the top of
  `evaluar_condicion` (lines 234–243 of the source) is dead code: it is
  never read afterwards, so it is omitted from the embedding.
-/

/-- Python scalar values used as fact values and condition targets. -/
inductive Value where
  | num (n : Int)
  | str (s : String)
  | vBool (b : Bool)
  | vNone
deriving Repr, DecidableEq

/-- Numeric view of a Python scalar: numbers are themselves, booleans
coerce (`True == 1`), strings and `None` are not numeric. -/
def Value.toNum : Value → Option Int
  | .num n => some n
  | .vBool b => some (if b then 1 else 0)
  | _ => none

/-- Python `==` on scalar values: total, never raises.  Numbers and
booleans compare numerically, strings compare as strings, `None` equals
only `None`; any other cross-type comparison is `false`. -/
def pyEq (a b : Value) : Bool :=
  match a.toNum, b.toNum with
  | some x, some y => x == y
  | _, _ =>
    match a, b with
    | .str s, .str t => s == t
    | .vNone, .vNone => true
    | _, _ => false

/-- Python `<` / `>` three-way comparison on scalar values: numbers and
booleans compare numerically, strings compare lexicographically, and any
other pair raises `TypeError` (modelled as `Except.error ()`). -/
def pyCmp (a b : Value) : Except Unit Ordering :=
  match a.toNum, b.toNum with
  | some x, some y => .ok (compare x y)
  | _, _ =>
    match a, b with
    | .str s, .str t => .ok (compare s t)
    | _, _ => .error ()

/-- Python `a > b` on scalar values. -/
def pyGt (a b : Value) : Except Unit Bool :=
  (pyCmp a b).map (fun o => o == Ordering.gt)

/-- Python `a < b` on scalar values. -/
def pyLt (a b : Value) : Except Unit Bool :=
  (pyCmp a b).map (fun o => o == Ordering.lt)

/-- One step bounded helper for `replaceChars`; the fuel is the length
of the string being scanned, which suffices because the pattern is
non-empty so every step consumes at least one character. -/
def replaceCharsAux (pat rep : List Char) : Nat → List Char → List Char
  | 0, s => s
  | _, [] => []
  | fuel+1, c :: rest =>
    if pat.isPrefixOf (c :: rest)
    then rep ++ replaceCharsAux pat rep fuel ((c :: rest).drop pat.length)
    else c :: replaceCharsAux pat rep fuel rest

/-- Replace every occurrence of `pat` in `s` by `rep` (the engine only
calls this with non-empty patterns, matching Python `str.replace`). -/
def replaceChars (s pat rep : List Char) : List Char :=
  if pat.isEmpty then s else replaceCharsAux pat rep s.length s

/-- Python `s.replace(pat, rep)` for the non-empty patterns the engine
uses (`"_mayor_que"`, `"_menor_que"`, `"_"`). -/
def pyReplace (s pat rep : String) : String :=
  ⟨replaceChars s.toList pat.toList rep.toList⟩

/-- Python `s.endswith(suf)`. -/
def pyEndsWith (s suf : String) : Bool :=
  suf.toList.isSuffixOf s.toList

/-- A fact in working memory (`Hecho` dataclass, lines 17–32). -/
structure Hecho where
  tipo : String
  atributo : String
  valor : Value
  confianza : Rat := 1
deriving Repr, DecidableEq

/-- Model of `MemoriaTrabajo.agregar_hecho` (lines 48–55): append the fact unless
a fact with the same `(tipo, atributo, valor)` triple — with Python
`==` on the value — is already stored. -/
def agregarHecho (m : List Hecho) (hecho : Hecho) : List Hecho :=
  if m.any (fun h =>
      h.tipo == hecho.tipo && h.atributo == hecho.atributo && pyEq h.valor hecho.valor)
  then m
  else m ++ [hecho]

/-- A condition specification: the `condiciones` dict of a rule, in
insertion order. -/
abbrev CondSpec : Type := List (String × Value)

/-- Python `d[k]` / `d.get(k)` on an insertion-ordered dict: value of
the first pair with the given key. -/
def dictGet (k : String) (d : List (String × Value)) : Option Value :=
  (d.find? (fun p => p.1 == k)).map (fun p => p.2)

/-- Model of `MotorInferencia._buscar_valor_hecho` (lines 294–305): first fact
whose attribute matches the queried key verbatim, or as
`"{tipo}_{atributo}"`, or with underscores stripped; plus the two
hardcoded synonym checks of the source. -/
def buscarValorHecho (atributo : String) : List Hecho → Option Value
  | [] => none
  | h :: hs =>
    if atributo == h.atributo
        || atributo == h.tipo ++ "_" ++ h.atributo
        || atributo == pyReplace h.atributo "_" ""
    then some h.valor
    else if atributo == "cantidad" && h.atributo == "cantidad"
    then some h.valor
    else if atributo == "emision_per_capita" && h.atributo == "per_capita"
    then some h.valor
    else buscarValorHecho atributo hs

/-- One pass of the per-key loop body of `evaluar_condicion`
(lines 252–284) for a single non-`"operador"` key/target pair:
`_mayor_que` / `_menor_que` keys strip their suffix (Python
`str.replace`, i.e. all occurrences) and compare numerically (this is
where a `TypeError` can escape); every other key is an equality term
with the `"_alt"` re-lookup branch. -/
def evalClave (condicion : CondSpec) (hechos : List Hecho)
    (clave : String) (valor : Value) : Except Unit Bool :=
  if pyEndsWith clave "_mayor_que" then
    match buscarValorHecho (pyReplace clave "_mayor_que" "") hechos with
    | some valorHecho => pyGt valorHecho valor
    | none => .ok false
  else if pyEndsWith clave "_menor_que" then
    match buscarValorHecho (pyReplace clave "_menor_que" "") hechos with
    | some valorHecho => pyLt valorHecho valor
    | none => .ok false
  else
    match buscarValorHecho clave hechos with
    | some valorHecho => .ok (pyEq valorHecho valor)
    | none =>
      match dictGet (clave ++ "_alt") condicion with
      | some valorAlt =>
        match buscarValorHecho clave hechos with
        | some valorHechoAlt => .ok (pyEq valorHechoAlt valorAlt)
        | none => .ok false
      | none => .ok false

/-- The `resultados` list built by the per-key loop of
`evaluar_condicion` (lines 245–284), iterating over the pairs `l` of
the condition dict: every key except `"operador"` contributes exactly
one boolean (a raised `TypeError` aborts the whole evaluation, which
the `Except` monad models). -/
def resultadosAux (condicion : CondSpec) (hechos : List Hecho) :
    List (String × Value) → Except Unit (List Bool)
  | [] => .ok []
  | (clave, valor) :: resto =>
    if clave == "operador" then resultadosAux condicion hechos resto
    else
      match evalClave condicion hechos clave valor with
      | .error e => .error e
      | .ok r =>
        match resultadosAux condicion hechos resto with
        | .error e => .error e
        | .ok rs => .ok (r :: rs)

/-- The full `resultados` list of one `evaluar_condicion` call. -/
def resultadosCondicion (condicion : CondSpec) (hechos : List Hecho) :
    Except Unit (List Bool) :=
  resultadosAux condicion hechos condicion

/-- Model of `MotorInferencia.evaluar_condicion` (lines 216–292): build the
per-key results, then combine them with the `operador` field (default
`"AND"`); an empty result list yields `false` under both combinators,
and an unrecognized combinator yields `false`. -/
def evaluarCondicion (condicion : CondSpec) (hechos : List Hecho) :
    Except Unit Bool :=
  let operador := (dictGet "operador" condicion).getD (.str "AND")
  match resultadosCondicion condicion hechos with
  | .error e => .error e
  | .ok rs =>
    if pyEq operador (.str "AND") then .ok (if rs.isEmpty then false else rs.all id)
    else if pyEq operador (.str "OR") then .ok (if rs.isEmpty then false else rs.any id)
    else .ok false

/-- Variant of `evalClave` with the `"_alt"` fallback branch deleted:
an equality key whose lookup fails is immediately `false`.  Used to
state that the alt branch of the source is dead code. -/
def evalClaveSinAlt (hechos : List Hecho)
    (clave : String) (valor : Value) : Except Unit Bool :=
  if pyEndsWith clave "_mayor_que" then
    match buscarValorHecho (pyReplace clave "_mayor_que" "") hechos with
    | some valorHecho => pyGt valorHecho valor
    | none => .ok false
  else if pyEndsWith clave "_menor_que" then
    match buscarValorHecho (pyReplace clave "_menor_que" "") hechos with
    | some valorHecho => pyLt valorHecho valor
    | none => .ok false
  else
    match buscarValorHecho clave hechos with
    | some valorHecho => .ok (pyEq valorHecho valor)
    | none => .ok false

/-- Per-key results with the alt branch deleted. -/
def resultadosSinAltAux (hechos : List Hecho) :
    List (String × Value) → Except Unit (List Bool)
  | [] => .ok []
  | (clave, valor) :: resto =>
    if clave == "operador" then resultadosSinAltAux hechos resto
    else
      match evalClaveSinAlt hechos clave valor with
      | .error e => .error e
      | .ok r =>
        match resultadosSinAltAux hechos resto with
        | .error e => .error e
        | .ok rs => .ok (r :: rs)

/-- Variant of `evaluar_condicion` with the alt branch deleted. -/
def evaluarCondicionSinAlt (condicion : CondSpec) (hechos : List Hecho) :
    Except Unit Bool :=
  let operador := (dictGet "operador" condicion).getD (.str "AND")
  match resultadosSinAltAux hechos condicion with
  | .error e => .error e
  | .ok rs =>
    if pyEq operador (.str "AND") then .ok (if rs.isEmpty then false else rs.all id)
    else if pyEq operador (.str "OR") then .ok (if rs.isEmpty then false else rs.any id)
    else .ok false

/-- A production rule (`reglas` entries; the spec's Rule record:
name, condition spec, conclusion mapping, integer priority). -/
structure Regla where
  nombre : String
  condiciones : CondSpec
  conclusion : List (String × Value)
  prioridad : Int
deriving Repr, DecidableEq

/-- The loaded rule set: insertion-ordered mapping
group name → (rule id → rule). -/
abbrev Reglas : Type := List (String × List (String × Regla))

/-- Model of `MotorInferencia._reglas_fallback` (lines 132–158): the built-in
static rule set. -/
def reglasFallback : Reglas :=
  [("reglas_basicas",
    [("R_EMISION_ALTA",
      ⟨"Alerta de Emisión Alta",
       [("emision_per_capita_mayor_que", .num 5000)],
       [("alerta", .str "Tu huella es significativamente alta. Es una prioridad identificar el foco.")],
       10⟩),
     ("R_MUNICIPIO_INDUSTRIAL",
      ⟨"Alerta de Contexto Municipal",
       [("municipio_tipo", .str "Industrial Pesado"),
        ("municipio_nivel_contaminacion", .str "Muy Alto")],
       [("contexto", .str "Tu municipio tiene altos factores de riesgo ambiental. Tu huella personal es crítica.")],
       8⟩),
     ("R_BAJO_IMPACTO",
      ⟨"Refuerzo Positivo",
       [("emision_per_capita_menor_que", .num 3000),
        ("usuario_perfil", .str "El ecologista comprometido")],
       [("refuerzo_positivo", .str "¡Felicidades! Tu esfuerzo como ecologista comprometido está dando frutos.")],
       5⟩)])]

/-- The possible outcomes of `FirebaseConnection.obtener_reglas` seen
from `cargar_reglas`: the provider call raises, returns `None`, returns
some non-dict value, or returns a dict of rule groups. -/
inductive ResultadoProveedor where
  | lanzaExcepcion
  | devuelveNone
  | devuelveNoMapa (v : Value)
  | devuelveMapa (m : Reglas)

/-- Model of `MotorInferencia.cargar_reglas` (lines 105–131): a raised exception
is caught and treated like `None`; then `None`, any non-dict value and
an empty dict all select the fallback rule set, and only a non-empty
dict from the provider is kept. -/
def cargarReglas : ResultadoProveedor → Reglas
  | .lanzaExcepcion => reglasFallback
  | .devuelveNone => reglasFallback
  | .devuelveNoMapa _ => reglasFallback
  | .devuelveMapa m => if m.isEmpty then reglasFallback else m

/-- One entry of the user's `actividades` list; each field is read with
`dict.get`, so an absent field contributes a `None`-valued fact. -/
structure Actividad where
  categoria : Option Value
  sub_categoria : Option Value
  cantidad : Option Value

/-- The seed record passed to `inicializar_hechos_desde_usuario`: a
Python dict in which every field may be absent (`none`). -/
structure DatosUsuario where
  municipio : Option Value
  tipo_municipio : Option Value
  nivel_contaminacion : Option Value
  emision_industria_ton : Option Value
  perfil : Option Value
  emision_per_capita_kg : Option Value
  actividades : Option (List Actividad)

/-- The three `agregar_hecho` calls done for one activity entry
(lines 202–212). -/
def agregarActividad (m : List Hecho) (a : Actividad) : List Hecho :=
  let m1 := agregarHecho m ⟨"actividad", "categoria", a.categoria.getD .vNone, 1⟩
  let m2 := agregarHecho m1 ⟨"actividad", "sub_categoria", a.sub_categoria.getD .vNone, 1⟩
  agregarHecho m2 ⟨"actividad", "cantidad", a.cantidad.getD .vNone, 1⟩

/-- First block of `inicializar_hechos_desde_usuario` (lines 172–187):
when `municipio` is present, four municipio facts are added, the last
three falling back to the defaults `"Desconocido"`, `"Medio"` and `0`
when their own field is absent. -/
def seedMunicipio (datos : DatosUsuario) (m : List Hecho) : List Hecho :=
  match datos.municipio with
  | some v =>
    let ma := agregarHecho m ⟨"municipio", "nombre", v, 1⟩
    let mb := agregarHecho ma
      ⟨"municipio", "tipo", datos.tipo_municipio.getD (.str "Desconocido"), 1⟩
    let mc := agregarHecho mb
      ⟨"municipio", "nivel_contaminacion", datos.nivel_contaminacion.getD (.str "Medio"), 1⟩
    agregarHecho mc
      ⟨"municipio", "emision_industria", datos.emision_industria_ton.getD (.num 0), 1⟩
  | none => m

/-- Second block (lines 189–193): one `usuario.perfil` fact when
`perfil` is present. -/
def seedPerfil (datos : DatosUsuario) (m : List Hecho) : List Hecho :=
  match datos.perfil with
  | some v => agregarHecho m ⟨"usuario", "perfil", v, 1⟩
  | none => m

/-- Third block (lines 195–199): one `emision.per_capita` fact when
`emision_per_capita_kg` is present. -/
def seedEmision (datos : DatosUsuario) (m : List Hecho) : List Hecho :=
  match datos.emision_per_capita_kg with
  | some v => agregarHecho m ⟨"emision", "per_capita", v, 1⟩
  | none => m

/-- Fourth block (lines 201–212): the activity triads. -/
def seedActividades (datos : DatosUsuario) (m : List Hecho) : List Hecho :=
  match datos.actividades with
  | some acts => acts.foldl agregarActividad m
  | none => m

/-- Model of `MotorInferencia.inicializar_hechos_desde_usuario` (lines 160–214):
the four blocks run in source order. -/
def inicializarHechosDesdeUsuario (datos : DatosUsuario) (m : List Hecho) :
    List Hecho :=
  seedActividades datos (seedEmision datos (seedPerfil datos (seedMunicipio datos m)))

/-- One entry of the applicable-rule list built by
`_buscar_reglas_aplicables` (lines 383–387). -/
structure Aplicable where
  id : String
  grupo : String
  regla : Regla
deriving Repr, DecidableEq

/-- Inner loop of `_buscar_reglas_aplicables` over the rules of one
group, in insertion order: skip already-fired ids, keep the rules whose
conditions evaluate true; an exception from `evaluar_condicion`
propagates. -/
def buscarEnGrupo (grupo : String) (disparadas : List String)
    (hechos : List Hecho) :
    List (String × Regla) → Except Unit (List Aplicable)
  | [] => .ok []
  | (reglaId, regla) :: resto =>
    if disparadas.contains reglaId then
      buscarEnGrupo grupo disparadas hechos resto
    else
      match evaluarCondicion regla.condiciones hechos with
      | .error e => .error e
      | .ok b =>
        match buscarEnGrupo grupo disparadas hechos resto with
        | .error e => .error e
        | .ok rest => .ok (if b then ⟨reglaId, grupo, regla⟩ :: rest else rest)

/-- Model of `MotorInferencia._buscar_reglas_aplicables` (lines 366–389): stable
traversal over groups, then rule ids, in mapping insertion order. -/
def buscarReglasAplicables (reglas : Reglas) (disparadas : List String)
    (hechos : List Hecho) : Except Unit (List Aplicable) :=
  match reglas with
  | [] => .ok []
  | (grupo, grupoReglas) :: resto =>
    match buscarEnGrupo grupo disparadas hechos grupoReglas with
    | .error e => .error e
    | .ok xs =>
      match buscarReglasAplicables resto disparadas hechos with
      | .error e => .error e
      | .ok ys => .ok (xs ++ ys)

/-- Python `max(lista, key=f)` over a non-empty list: fold keeping the
current best and replacing it only on a strictly greater key, so the
first element attaining the maximal key wins.  Here the key is the
rule's integer priority (line 341–342 of the source). -/
def pyMax2 (key : Aplicable → Int) (mejor : Aplicable) :
    List Aplicable → Aplicable
  | [] => mejor
  | x :: resto => pyMax2 key (if key x > key mejor then x else mejor) resto

/-- One record of the conclusion log (`_ejecutar_regla`,
lines 402–406): the rule's *name*, its conclusion mapping, and its
priority. -/
structure Conclusion where
  regla : String
  conclusion : List (String × Value)
  prioridad : Int
deriving Repr, DecidableEq

/-- State of one `ejecutar_inferencia` run: working-memory facts, the
conclusion log, the fired rule ids (a Python `set`, modelled as the
list of ids in firing order — only membership and insertion are used),
and the iteration counter. -/
structure EstadoMotor where
  hechos : List Hecho
  conclusiones : List Conclusion
  disparadas : List String
  iteracion : Nat
deriving Repr, DecidableEq

/-- Model of `MotorInferencia._ejecutar_regla` (lines 391–419): append the
conclusion record; a `sugerencia` key in the conclusion adds a derived
`(inferencia, sugerencia, ·)` fact, an `alerta` key adds a derived
`(inferencia, alerta, ·)` fact; other conclusion keys add nothing. -/
def ejecutarRegla (s : EstadoMotor) (r : Aplicable) : EstadoMotor :=
  let concls := s.conclusiones ++ [⟨r.regla.nombre, r.regla.conclusion, r.regla.prioridad⟩]
  let h1 := match dictGet "sugerencia" r.regla.conclusion with
    | some v => agregarHecho s.hechos ⟨"inferencia", "sugerencia", v, 1⟩
    | none => s.hechos
  let h2 := match dictGet "alerta" r.regla.conclusion with
    | some v => agregarHecho h1 ⟨"inferencia", "alerta", v, 1⟩
    | none => h1
  ⟨h2, concls, s.disparadas, s.iteracion⟩

/-- The `while iteracion < max_iteraciones` loop of
`ejecutar_inferencia` (lines 326–351), phrased with the number of
remaining iterations (`max_iteraciones - iteracion`) as fuel: each pass
increments the counter, runs MATCH, stops when nothing is applicable,
otherwise RESOLVEs by `max` on priority, EXECUTEs the selected rule and
marks its id as fired. -/
def cicloInferencia (reglas : Reglas) :
    Nat → EstadoMotor → Except Unit EstadoMotor
  | 0, s => .ok s
  | restantes + 1, s =>
    let s1 : EstadoMotor := ⟨s.hechos, s.conclusiones, s.disparadas, s.iteracion + 1⟩
    match buscarReglasAplicables reglas s1.disparadas s1.hechos with
    | .error e => .error e
    | .ok [] => .ok s1
    | .ok (a :: resto) =>
      let sel := pyMax2 (fun r => r.regla.prioridad) a resto
      let s2 := ejecutarRegla s1 sel
      cicloInferencia reglas restantes
        ⟨s2.hechos, s2.conclusiones, s2.disparadas ++ [sel.id], s2.iteracion⟩

/-- Model of `MotorInferencia.ejecutar_inferencia` (lines 307–364): run the loop
from a fresh fired set, empty conclusion log and iteration counter 0,
and return the accumulated conclusion list (the final best-effort
persistence call is an external side effect outside the model). -/
def ejecutarInferencia (reglas : Reglas) (hechos : List Hecho)
    (maxIteraciones : Nat) : Except Unit (List Conclusion) :=
  (cicloInferencia reglas maxIteraciones ⟨hechos, [], [], 0⟩).map
    (fun st => st.conclusiones)

/-! ### Concrete instances used to exercise the theorems -/

/-- Working memory seeded from the example user record of
`ejemplo_inferencia` (activities aside). -/
def hechosDemo : List Hecho :=
  [⟨"municipio", "nombre", .str "Tula de Allende", 1⟩,
   ⟨"municipio", "tipo", .str "Industrial Pesado", 1⟩,
   ⟨"municipio", "nivel_contaminacion", .str "Muy Alto", 1⟩,
   ⟨"municipio", "emision_industria", .num 180000, 1⟩,
   ⟨"usuario", "perfil", .str "El ecologista comprometido", 1⟩,
   ⟨"emision", "per_capita", .num 8500, 1⟩]

/-- Final engine state of a 10-iteration run on `reglasFallback` from
`hechosDemo`: the high-emission alert fires first (priority 10, adding
the derived alert fact), then the industrial-context alert, and the
third iteration finds nothing applicable. -/
def stDemo : EstadoMotor :=
  ⟨hechosDemo ++
     [⟨"inferencia", "alerta",
       .str "Tu huella es significativamente alta. Es una prioridad identificar el foco.", 1⟩],
   [⟨"Alerta de Emisión Alta",
     [("alerta", .str "Tu huella es significativamente alta. Es una prioridad identificar el foco.")],
     10⟩,
    ⟨"Alerta de Contexto Municipal",
     [("contexto", .str "Tu municipio tiene altos factores de riesgo ambiental. Tu huella personal es crítica.")],
     8⟩],
   ["R_EMISION_ALTA", "R_MUNICIPIO_INDUSTRIAL"],
   3⟩

/-- Low-impact seed: per-capita 2000 plus the committed-ecologist
profile, so only `R_BAJO_IMPACTO` can fire. -/
def hechosEco : List Hecho :=
  [⟨"emision", "per_capita", .num 2000, 1⟩,
   ⟨"usuario", "perfil", .str "El ecologista comprometido", 1⟩]

/-- Final engine state of a 10-iteration run on `reglasFallback` from
`hechosEco`. -/
def stEco : EstadoMotor :=
  ⟨hechosEco,
   [⟨"Refuerzo Positivo",
     [("refuerzo_positivo", .str "¡Felicidades! Tu esfuerzo como ecologista comprometido está dando frutos.")],
     5⟩],
   ["R_BAJO_IMPACTO"],
   2⟩

/-- A rule set with a priority tie: `RA` and `RB` share priority 7 and
both match, `RC` has priority 5; `RA` comes first in traversal order. -/
def reglasEmpate : Reglas :=
  [("grupo_a",
    [("RA", ⟨"Regla A", [("usuario_perfil", .str "X")], [], 7⟩),
     ("RB", ⟨"Regla B", [("usuario_perfil", .str "X")], [], 7⟩)]),
   ("grupo_b",
    [("RC", ⟨"Regla C", [("usuario_perfil", .str "X")], [], 5⟩)])]

/-- The single fact satisfying every rule of `reglasEmpate`. -/
def hechosEmpate : List Hecho := [⟨"usuario", "perfil", .str "X", 1⟩]

/-- Applicable-list entry for `RA` of `reglasEmpate`. -/
def aplRA : Aplicable := ⟨"RA", "grupo_a", ⟨"Regla A", [("usuario_perfil", .str "X")], [], 7⟩⟩

/-- Applicable-list entry for `RB` of `reglasEmpate`. -/
def aplRB : Aplicable := ⟨"RB", "grupo_a", ⟨"Regla B", [("usuario_perfil", .str "X")], [], 7⟩⟩

/-- Applicable-list entry for `RC` of `reglasEmpate`. -/
def aplRC : Aplicable := ⟨"RC", "grupo_b", ⟨"Regla C", [("usuario_perfil", .str "X")], [], 5⟩⟩

/-- Condition spec holding an equality key together with its `"_alt"`
sibling (and an explicit `operador` entry). -/
def condAlt : CondSpec :=
  [("operador", .str "AND"),
   ("nivel_contaminacion", .str "Alto"),
   ("nivel_contaminacion_alt", .str "Muy Alto")]

/-- A single fact satisfying the base key of `condAlt`. -/
def hechosAlt : List Hecho := [⟨"municipio", "nivel_contaminacion", .str "Alto", 1⟩]

/-- Seed record whose only present field is `municipio`. -/
def datosSoloMunicipio : DatosUsuario :=
  ⟨some (.str "Tula"), none, none, none, none, none, none⟩

/-! ### Helper lemmas -/

/-- A successful fact-value lookup returns the value of some stored fact. -/
theorem buscarValorHecho_mem (atributo : String) (hechos : List Hecho) (v : Value)
    (h : buscarValorHecho atributo hechos = some v) : ∃ hf ∈ hechos, hf.valor = v := by
  induction hechos with
  | nil => simp [buscarValorHecho] at h
  | cons hd hs ih =>
    rw [buscarValorHecho] at h
    split at h
    · exact ⟨hd, List.mem_cons_self hd hs, (Option.some.inj h)⟩
    · split at h
      · exact ⟨hd, List.mem_cons_self hd hs, (Option.some.inj h)⟩
      · split at h
        · exact ⟨hd, List.mem_cons_self hd hs, (Option.some.inj h)⟩
        · obtain ⟨hf, hmem, hval⟩ := ih h
          exact ⟨hf, List.mem_cons_of_mem hd hmem, hval⟩

/-- Python `max` over `mejor :: resto` returns an element of the list. -/
theorem pyMax2_mem (key : Aplicable → Int) (resto : List Aplicable) (mejor : Aplicable) :
    pyMax2 key mejor resto ∈ mejor :: resto := by
  induction resto generalizing mejor with
  | nil => simp [pyMax2]
  | cons x resto ih =>
    rw [pyMax2]
    rcases List.mem_cons.mp (ih (if key x > key mejor then x else mejor)) with h | h
    · rw [h]
      split
      · exact List.mem_cons_of_mem mejor (List.mem_cons_self x resto)
      · exact List.mem_cons_self mejor (x :: resto)
    · exact List.mem_cons_of_mem mejor (List.mem_cons_of_mem x h)

/-- Python `max(lista, key)` keeps the first element attaining the
maximal key: the selected element splits the list so that everything
has key at most the selected key, and everything strictly before the
selected element has a strictly smaller key. -/
theorem pyMax2_primero_maximal (key : Aplicable → Int) (resto : List Aplicable)
    (mejor : Aplicable) :
    ∃ l₁ l₂, mejor :: resto = l₁ ++ pyMax2 key mejor resto :: l₂ ∧
      (∀ y ∈ mejor :: resto, key y ≤ key (pyMax2 key mejor resto)) ∧
      (∀ y ∈ l₁, key y < key (pyMax2 key mejor resto)) := by
  induction resto generalizing mejor with
  | nil =>
    refine ⟨[], [], by simp [pyMax2], ?_, by simp⟩
    intro y hy
    rw [List.mem_singleton.mp hy]
    simp [pyMax2]
  | cons x resto ih =>
    rw [pyMax2]
    by_cases hx : key x > key mejor
    · simp only [if_pos hx]
      obtain ⟨l₁, l₂, hdec, hmax, hlt⟩ := ih x
      have hxM : key x ≤ key (pyMax2 key x resto) :=
        hmax x (List.mem_cons_self x resto)
      refine ⟨mejor :: l₁, l₂, ?_, ?_, ?_⟩
      · simpa using hdec
      · intro y hy
        rcases List.mem_cons.mp hy with h | h
        · rw [h]; exact le_of_lt (lt_of_lt_of_le hx hxM)
        · exact hmax y h
      · intro y hy
        rcases List.mem_cons.mp hy with h | h
        · rw [h]; exact lt_of_lt_of_le hx hxM
        · exact hlt y h
    · simp only [if_neg hx]
      push_neg at hx
      obtain ⟨l₁, l₂, hdec, hmax, hlt⟩ := ih mejor
      have hmM : key mejor ≤ key (pyMax2 key mejor resto) :=
        hmax mejor (List.mem_cons_self mejor resto)
      cases l₁ with
      | nil =>
        have hM : pyMax2 key mejor resto = mejor := by
          have := congrArg (fun l => l.head?) hdec
          simpa using this.symm
        refine ⟨[], x :: resto, by simp [hM], ?_, by simp⟩
        intro y hy
        rcases List.mem_cons.mp hy with h | h
        · rw [h]; exact hmM
        · rcases List.mem_cons.mp h with h' | h'
          · rw [h']; exact le_trans hx hmM
          · exact hmax y (List.mem_cons_of_mem mejor h')
      | cons b l₁' =>
        have hb : b = mejor ∧ resto = l₁' ++ pyMax2 key mejor resto :: l₂ := by
          have := hdec
          rw [List.cons_append] at this
          exact ⟨(List.cons.inj this).1.symm ▸ rfl, (List.cons.inj this).2⟩
        obtain ⟨hbm, hresto⟩ := hb
        have hmejorlt : key mejor < key (pyMax2 key mejor resto) := by
          have := hlt b (List.mem_cons_self b l₁')
          rwa [hbm] at this
        refine ⟨mejor :: x :: l₁', l₂, ?_, ?_, ?_⟩
        · conv_lhs => rw [hresto]
          simp
        · intro y hy
          rcases List.mem_cons.mp hy with h | h
          · rw [h]; exact hmM
          · rcases List.mem_cons.mp h with h' | h'
            · rw [h']; exact le_trans hx hmM
            · exact hmax y (List.mem_cons_of_mem mejor h')
        · intro y hy
          rcases List.mem_cons.mp hy with h | h
          · rw [h]; exact hmejorlt
          · rcases List.mem_cons.mp h with h' | h'
            · rw [h']; exact lt_of_le_of_lt hx hmejorlt
            · exact hlt y (List.mem_cons_of_mem b h')

/-- Every entry of the applicable list built for one group is an
unfired rule whose conditions evaluated to true. -/
theorem buscarEnGrupo_sound (grupo : String) (disparadas : List String)
    (hechos : List Hecho) :
    ∀ (l : List (String × Regla)) (res : List Aplicable),
    buscarEnGrupo grupo disparadas hechos l = .ok res →
    ∀ a ∈ res, disparadas.contains a.id = false ∧
      evaluarCondicion a.regla.condiciones hechos = .ok true := by
  intro l
  induction l with
  | nil =>
    intro res h
    rw [buscarEnGrupo] at h
    obtain rfl := Except.ok.inj h
    simp
  | cons p resto ih =>
    obtain ⟨rid, regla⟩ := p
    intro res h
    rw [buscarEnGrupo] at h
    split at h
    · exact ih res h
    · rename_i hfired
      cases hev : evaluarCondicion regla.condiciones hechos with
      | error e => rw [hev] at h; simp at h
      | ok b =>
        rw [hev] at h
        cases hrest : buscarEnGrupo grupo disparadas hechos resto with
        | error e => rw [hrest] at h; simp at h
        | ok rest =>
          rw [hrest] at h
          obtain rfl := Except.ok.inj h
          intro a ha
          cases b with
          | false =>
            exact ih rest hrest a (by simpa using ha)
          | true =>
            rcases List.mem_cons.mp (by simpa using ha) with rfl | ha'
            · refine ⟨by simpa using hfired, hev⟩
            · exact ih rest hrest a ha'

/-- Every entry of the full applicable list (MATCH phase) is an unfired
rule whose conditions evaluated to true. -/
theorem buscarReglasAplicables_sound (disparadas : List String) (hechos : List Hecho) :
    ∀ (reglas : Reglas) (res : List Aplicable),
    buscarReglasAplicables reglas disparadas hechos = .ok res →
    ∀ a ∈ res, disparadas.contains a.id = false ∧
      evaluarCondicion a.regla.condiciones hechos = .ok true := by
  intro reglas
  induction reglas with
  | nil =>
    intro res h
    simp only [buscarReglasAplicables] at h
    obtain rfl := Except.ok.inj h
    simp
  | cons p resto ih =>
    obtain ⟨grupo, grupoReglas⟩ := p
    intro res h
    simp only [buscarReglasAplicables] at h
    cases hx : buscarEnGrupo grupo disparadas hechos grupoReglas with
    | error e => rw [hx] at h; simp at h
    | ok xs =>
      rw [hx] at h
      cases hy : buscarReglasAplicables resto disparadas hechos with
      | error e => rw [hy] at h; simp at h
      | ok ys =>
        rw [hy] at h
        obtain rfl := Except.ok.inj h
        intro a ha
        rcases List.mem_append.mp ha with h' | h'
        · exact buscarEnGrupo_sound grupo disparadas hechos grupoReglas xs hx a h'
        · exact ih ys hy a h'

/-- Projection of `ejecutarRegla`: the conclusion log grows by exactly
the selected rule's record. -/
theorem ejecutarRegla_conclusiones (s : EstadoMotor) (r : Aplicable) :
    (ejecutarRegla s r).conclusiones =
      s.conclusiones ++ [⟨r.regla.nombre, r.regla.conclusion, r.regla.prioridad⟩] := rfl

/-- Projection of `ejecutarRegla`: the fired set is untouched (it is
updated by the loop, not by EXECUTE). -/
theorem ejecutarRegla_disparadas (s : EstadoMotor) (r : Aplicable) :
    (ejecutarRegla s r).disparadas = s.disparadas := rfl

/-- Projection of `ejecutarRegla`: the iteration counter is untouched. -/
theorem ejecutarRegla_iteracion (s : EstadoMotor) (r : Aplicable) :
    (ejecutarRegla s r).iteracion = s.iteracion := rfl

/-- Main loop invariant: a successful run from state `s` with `fuel`
remaining iterations raises the counter by at most `fuel`, appends at
most `fuel` conclusion records, and preserves
"fired ids are pairwise distinct and one conclusion per firing". -/
theorem cicloInferencia_invariante (reglas : Reglas) :
    ∀ (fuel : Nat) (s st : EstadoMotor),
    cicloInferencia reglas fuel s = .ok st →
    st.iteracion ≤ s.iteracion + fuel ∧
    st.conclusiones.length ≤ s.conclusiones.length + fuel ∧
    ((s.disparadas.Nodup ∧ s.conclusiones.length = s.disparadas.length) →
      st.disparadas.Nodup ∧ st.conclusiones.length = st.disparadas.length) := by
  intro fuel
  induction fuel with
  | zero =>
    intro s st h
    rw [cicloInferencia] at h
    obtain rfl := Except.ok.inj h
    exact ⟨Nat.le_add_right _ _, Nat.le_add_right _ _, fun hp => hp⟩
  | succ fuel ih =>
    intro s st h
    simp only [cicloInferencia] at h
    cases hb : buscarReglasAplicables reglas s.disparadas s.hechos with
    | error e => rw [hb] at h; simp at h
    | ok apl =>
      rw [hb] at h
      cases apl with
      | nil =>
        obtain rfl := Except.ok.inj h
        exact ⟨Nat.add_le_add_left (by omega) s.iteracion, Nat.le_add_right _ _,
          fun hp => hp⟩
      | cons a resto =>
        have hsel := (buscarReglasAplicables_sound s.disparadas s.hechos reglas
          (a :: resto) hb (pyMax2 (fun r => r.regla.prioridad) a resto)
          (pyMax2_mem (fun r => r.regla.prioridad) resto a)).1
        have hnotmem : (pyMax2 (fun r => r.regla.prioridad) a resto).id ∉ s.disparadas := by
          simpa using hsel
        obtain ⟨h1, h2, h3⟩ := ih _ _ h
        simp [ejecutarRegla_iteracion] at h1
        simp [ejecutarRegla_conclusiones] at h2
        refine ⟨by omega, by omega, fun hp => ?_⟩
        refine h3 ⟨?_, ?_⟩
        · simp [ejecutarRegla_disparadas, List.nodup_append, hp.1, hnotmem]
        · simp [ejecutarRegla_conclusiones, ejecutarRegla_disparadas, hp.2]

/-- A single condition term never raises when every fact value is
py-comparable with the term's target whenever the term is a
greater-than / less-than key: malformed keys, unresolved lookups and
equality terms are total on their own. -/
theorem evalClave_ok (condicion : CondSpec) (hechos : List Hecho)
    (clave : String) (valor : Value)
    (hcomp : (pyEndsWith clave "_mayor_que" || pyEndsWith clave "_menor_que") = true →
      ∀ hf ∈ hechos, (pyCmp hf.valor valor).isOk = true) :
    (evalClave condicion hechos clave valor).isOk = true := by
  by_cases h1 : pyEndsWith clave "_mayor_que" = true
  · simp only [evalClave, h1, if_true]
    cases hb : buscarValorHecho (pyReplace clave "_mayor_que" "") hechos with
    | none => rfl
    | some v =>
      obtain ⟨hf, hmem, hval⟩ := buscarValorHecho_mem _ _ _ hb
      have hok := hcomp (by simp [h1]) hf hmem
      rw [hval] at hok
      cases hc : pyCmp v valor with
      | error e => rw [hc] at hok; simp [Except.isOk, Except.toBool] at hok
      | ok o => simp [pyGt, hc, Except.map, Except.isOk, Except.toBool]
  · by_cases h2 : pyEndsWith clave "_menor_que" = true
    · simp only [evalClave, h1, h2, if_true, Bool.false_eq_true, if_false]
      cases hb : buscarValorHecho (pyReplace clave "_menor_que" "") hechos with
      | none => rfl
      | some v =>
        obtain ⟨hf, hmem, hval⟩ := buscarValorHecho_mem _ _ _ hb
        have hok := hcomp (by simp [h2]) hf hmem
        rw [hval] at hok
        cases hc : pyCmp v valor with
        | error e => rw [hc] at hok; simp [Except.isOk, Except.toBool] at hok
        | ok o => simp [pyLt, hc, Except.map, Except.isOk, Except.toBool]
    · simp only [evalClave, h1, h2, Bool.false_eq_true, if_false]
      cases hb : buscarValorHecho clave hechos with
      | some v => rfl
      | none =>
        cases hd : dictGet (clave ++ "_alt") condicion with
        | some valorAlt => rfl
        | none => rfl

/-- The per-key loop never raises when every greater-than / less-than
target in the traversed pairs is py-comparable with every fact value. -/
theorem resultadosAux_ok (condicion : CondSpec) (hechos : List Hecho) :
    ∀ (l : List (String × Value)),
    (∀ kv ∈ l,
      (pyEndsWith kv.1 "_mayor_que" || pyEndsWith kv.1 "_menor_que") = true →
      ∀ hf ∈ hechos, (pyCmp hf.valor kv.2).isOk = true) →
    ∃ rs, resultadosAux condicion hechos l = .ok rs := by
  intro l
  induction l with
  | nil => intro _; exact ⟨[], rfl⟩
  | cons kv resto ih =>
    obtain ⟨clave, valor⟩ := kv
    intro hcomp
    obtain ⟨rs, hrs⟩ := ih (fun kv hkv => hcomp kv (List.mem_cons_of_mem _ hkv))
    by_cases hop : (clave == "operador") = true
    · exact ⟨rs, by rw [resultadosAux, if_pos hop]; exact hrs⟩
    · have hok := evalClave_ok condicion hechos clave valor
        (hcomp (clave, valor) (List.mem_cons_self _ _))
      cases hb : evalClave condicion hechos clave valor with
      | error e => rw [hb] at hok; simp [Except.isOk, Except.toBool] at hok
      | ok r =>
        refine ⟨r :: rs, ?_⟩
        rw [resultadosAux, if_neg hop, hb, hrs]

/-- Each traversed pair except the `"operador"` ones contributes exactly
one entry to the `resultados` list. -/
theorem resultadosAux_longitud (condicion : CondSpec) (hechos : List Hecho) :
    ∀ (l : List (String × Value)) (rs : List Bool),
    resultadosAux condicion hechos l = .ok rs →
    rs.length = (l.filter (fun kv => !(kv.1 == "operador"))).length := by
  intro l
  induction l with
  | nil =>
    intro rs h
    rw [resultadosAux] at h
    obtain rfl := Except.ok.inj h
    simp
  | cons kv resto ih =>
    obtain ⟨clave, valor⟩ := kv
    intro rs h
    rw [resultadosAux] at h
    by_cases hop : (clave == "operador") = true
    · rw [if_pos hop] at h
      simpa [List.filter_cons, hop] using ih rs h
    · rw [if_neg hop] at h
      cases he : evalClave condicion hechos clave valor with
      | error e => rw [he] at h; simp at h
      | ok r =>
        rw [he] at h
        cases hr : resultadosAux condicion hechos resto with
        | error e => rw [hr] at h; simp at h
        | ok rs' =>
          rw [hr] at h
          obtain rfl := Except.ok.inj h
          simpa [List.filter_cons, hop] using ih rs' hr

/-- When every traversed key is `"operador"`, the `resultados` list
comes back empty. -/
theorem resultadosAux_solo_operador (condicion : CondSpec) (hechos : List Hecho) :
    ∀ (l : List (String × Value)), (∀ kv ∈ l, kv.1 = "operador") →
    resultadosAux condicion hechos l = .ok [] := by
  intro l
  induction l with
  | nil => intro _; rfl
  | cons kv resto ih =>
    obtain ⟨clave, valor⟩ := kv
    intro hall
    have hc : clave = "operador" := hall (clave, valor) (List.mem_cons_self _ _)
    rw [resultadosAux, if_pos (by simp [hc])]
    exact ih (fun kv hkv => hall kv (List.mem_cons_of_mem _ hkv))

/-- The alt branch of a single equality term is dead: when the primary
lookup fails, the alt re-lookup of the same key fails too. -/
theorem evalClave_sin_alt (condicion : CondSpec) (hechos : List Hecho)
    (clave : String) (valor : Value) :
    evalClave condicion hechos clave valor = evalClaveSinAlt hechos clave valor := by
  by_cases h1 : pyEndsWith clave "_mayor_que" = true
  · simp [evalClave, evalClaveSinAlt, h1]
  · by_cases h2 : pyEndsWith clave "_menor_que" = true
    · simp [evalClave, evalClaveSinAlt, h1, h2]
    · simp only [evalClave, evalClaveSinAlt, h1, h2, Bool.false_eq_true, if_false]
      cases hb : buscarValorHecho clave hechos with
      | some v => rfl
      | none =>
        cases hd : dictGet (clave ++ "_alt") condicion with
        | some valorAlt => rfl
        | none => rfl

/-- The whole per-key loop agrees with its alt-free variant. -/
theorem resultadosAux_sin_alt (condicion : CondSpec) (hechos : List Hecho) :
    ∀ (l : List (String × Value)),
    resultadosAux condicion hechos l = resultadosSinAltAux hechos l := by
  intro l
  induction l with
  | nil => rfl
  | cons kv resto ih =>
    obtain ⟨clave, valor⟩ := kv
    rw [resultadosAux, resultadosSinAltAux, evalClave_sin_alt, ih]

/-- Facts already in memory survive `agregarHecho`. -/
theorem agregarHecho_mem_mono (m : List Hecho) (hecho h' : Hecho) (hm : h' ∈ m) :
    h' ∈ agregarHecho m hecho := by
  rw [agregarHecho]
  split
  · exact hm
  · exact List.mem_append_left _ hm

/-- A fact in memory after `agregarHecho` was there before or is the
added fact itself. -/
theorem agregarHecho_mem_cases (m : List Hecho) (hecho h' : Hecho)
    (hm : h' ∈ agregarHecho m hecho) : h' ∈ m ∨ h' = hecho := by
  rw [agregarHecho] at hm
  split at hm
  · exact Or.inl hm
  · rcases List.mem_append.mp hm with h | h
    · exact Or.inl h
    · exact Or.inr (List.mem_singleton.mp h)

/-- After `agregarHecho` some fact with the added fact's type and
attribute is in memory (either the pre-existing duplicate or the fact
itself). -/
theorem agregarHecho_mem_clave (m : List Hecho) (hecho : Hecho) :
    ∃ h' ∈ agregarHecho m hecho, h'.tipo = hecho.tipo ∧ h'.atributo = hecho.atributo := by
  rw [agregarHecho]
  split
  · rename_i hany
    obtain ⟨h', hmem, hcond⟩ := List.any_eq_true.mp hany
    simp only [Bool.and_eq_true, beq_iff_eq] at hcond
    exact ⟨h', hmem, hcond.1.1, hcond.1.2⟩
  · exact ⟨hecho, List.mem_append_right _ (List.mem_singleton_self _), rfl, rfl⟩

/-- Every fact contributed by one activity entry has type `"actividad"`. -/
theorem agregarActividad_cases (m : List Hecho) (a : Actividad) (h' : Hecho)
    (hm : h' ∈ agregarActividad m a) : h' ∈ m ∨ h'.tipo = "actividad" := by
  simp only [agregarActividad] at hm
  rcases agregarHecho_mem_cases _ _ _ hm with h | h
  · rcases agregarHecho_mem_cases _ _ _ h with h2 | h2
    · rcases agregarHecho_mem_cases _ _ _ h2 with h3 | h3
      · exact Or.inl h3
      · exact Or.inr (by rw [h3])
    · exact Or.inr (by rw [h2])
  · exact Or.inr (by rw [h])

/-- Facts already in memory survive one activity entry. -/
theorem agregarActividad_mono (m : List Hecho) (a : Actividad) (h' : Hecho)
    (hm : h' ∈ m) : h' ∈ agregarActividad m a := by
  simp only [agregarActividad]
  exact agregarHecho_mem_mono _ _ _ (agregarHecho_mem_mono _ _ _ (agregarHecho_mem_mono _ _ _ hm))

/-- Every fact contributed by the activities fold has type
`"actividad"`. -/
theorem foldActividades_cases (h' : Hecho) :
    ∀ (acts : List Actividad) (m : List Hecho),
    h' ∈ acts.foldl agregarActividad m → h' ∈ m ∨ h'.tipo = "actividad" := by
  intro acts
  induction acts with
  | nil => intro m hm; exact Or.inl hm
  | cons a acts ih =>
    intro m hm
    rcases ih (agregarActividad m a) hm with h | h
    · exact agregarActividad_cases m a h' h
    · exact Or.inr h

/-- Facts already in memory survive the activities fold. -/
theorem foldActividades_mono (h' : Hecho) :
    ∀ (acts : List Actividad) (m : List Hecho),
    h' ∈ m → h' ∈ acts.foldl agregarActividad m := by
  intro acts
  induction acts with
  | nil => intro m hm; exact hm
  | cons a acts ih =>
    intro m hm
    exact ih _ (agregarActividad_mono m a h' hm)

/-- Backward characterisation of the municipio block. -/
theorem seedMunicipio_cases (datos : DatosUsuario) (m : List Hecho) (h' : Hecho)
    (hm : h' ∈ seedMunicipio datos m) :
    h' ∈ m ∨ (h'.tipo = "municipio" ∧ datos.municipio.isSome = true) := by
  rw [seedMunicipio] at hm
  cases hmun : datos.municipio with
  | none => rw [hmun] at hm; exact Or.inl hm
  | some v =>
    rw [hmun] at hm
    simp only [] at hm
    rcases agregarHecho_mem_cases _ _ _ hm with h1 | h1
    · rcases agregarHecho_mem_cases _ _ _ h1 with h2 | h2
      · rcases agregarHecho_mem_cases _ _ _ h2 with h3 | h3
        · rcases agregarHecho_mem_cases _ _ _ h3 with h4 | h4
          · exact Or.inl h4
          · exact Or.inr ⟨by rw [h4], rfl⟩
        · exact Or.inr ⟨by rw [h3], rfl⟩
      · exact Or.inr ⟨by rw [h2], rfl⟩
    · exact Or.inr ⟨by rw [h1], rfl⟩

/-- Facts already in memory survive the municipio block. -/
theorem seedMunicipio_mono (datos : DatosUsuario) (m : List Hecho) (h' : Hecho)
    (hm : h' ∈ m) : h' ∈ seedMunicipio datos m := by
  rw [seedMunicipio]
  cases datos.municipio with
  | none => exact hm
  | some v =>
    exact agregarHecho_mem_mono _ _ _ (agregarHecho_mem_mono _ _ _
      (agregarHecho_mem_mono _ _ _ (agregarHecho_mem_mono _ _ _ hm)))

/-- When `municipio` is present the municipio block leaves a
`(municipio, tipo)` fact in memory, whether or not `tipo_municipio`
was given. -/
theorem seedMunicipio_tipo (datos : DatosUsuario) (m : List Hecho)
    (hmun : datos.municipio.isSome = true) :
    ∃ h' ∈ seedMunicipio datos m, h'.tipo = "municipio" ∧ h'.atributo = "tipo" := by
  rw [seedMunicipio]
  cases hm : datos.municipio with
  | none => rw [hm] at hmun; simp at hmun
  | some v =>
    obtain ⟨h', hmem, hh⟩ := agregarHecho_mem_clave
      (agregarHecho m ⟨"municipio", "nombre", v, 1⟩)
      ⟨"municipio", "tipo", datos.tipo_municipio.getD (.str "Desconocido"), 1⟩
    exact ⟨h', agregarHecho_mem_mono _ _ _ (agregarHecho_mem_mono _ _ _ hmem), hh⟩

/-- As `seedMunicipio_tipo`, for `(municipio, nivel_contaminacion)`. -/
theorem seedMunicipio_nivel (datos : DatosUsuario) (m : List Hecho)
    (hmun : datos.municipio.isSome = true) :
    ∃ h' ∈ seedMunicipio datos m,
      h'.tipo = "municipio" ∧ h'.atributo = "nivel_contaminacion" := by
  rw [seedMunicipio]
  cases hm : datos.municipio with
  | none => rw [hm] at hmun; simp at hmun
  | some v =>
    obtain ⟨h', hmem, hh⟩ := agregarHecho_mem_clave
      (agregarHecho (agregarHecho m ⟨"municipio", "nombre", v, 1⟩)
        ⟨"municipio", "tipo", datos.tipo_municipio.getD (.str "Desconocido"), 1⟩)
      ⟨"municipio", "nivel_contaminacion", datos.nivel_contaminacion.getD (.str "Medio"), 1⟩
    exact ⟨h', agregarHecho_mem_mono _ _ _ hmem, hh⟩

/-- As `seedMunicipio_tipo`, for `(municipio, emision_industria)`. -/
theorem seedMunicipio_emisionInd (datos : DatosUsuario) (m : List Hecho)
    (hmun : datos.municipio.isSome = true) :
    ∃ h' ∈ seedMunicipio datos m,
      h'.tipo = "municipio" ∧ h'.atributo = "emision_industria" := by
  rw [seedMunicipio]
  cases hm : datos.municipio with
  | none => rw [hm] at hmun; simp at hmun
  | some v =>
    exact agregarHecho_mem_clave _ _

/-- Backward characterisation of the perfil block. -/
theorem seedPerfil_cases (datos : DatosUsuario) (m : List Hecho) (h' : Hecho)
    (hm : h' ∈ seedPerfil datos m) :
    h' ∈ m ∨ (h'.tipo = "usuario" ∧ datos.perfil.isSome = true) := by
  rw [seedPerfil] at hm
  cases hp : datos.perfil with
  | none => rw [hp] at hm; exact Or.inl hm
  | some v =>
    rw [hp] at hm
    rcases agregarHecho_mem_cases _ _ _ hm with h1 | h1
    · exact Or.inl h1
    · exact Or.inr ⟨by rw [h1], rfl⟩

/-- Facts already in memory survive the perfil block. -/
theorem seedPerfil_mono (datos : DatosUsuario) (m : List Hecho) (h' : Hecho)
    (hm : h' ∈ m) : h' ∈ seedPerfil datos m := by
  rw [seedPerfil]
  cases datos.perfil with
  | none => exact hm
  | some v => exact agregarHecho_mem_mono _ _ _ hm

/-- When `perfil` is present, the perfil block leaves a
`(usuario, perfil)` fact in memory. -/
theorem seedPerfil_perfil (datos : DatosUsuario) (m : List Hecho)
    (hp : datos.perfil.isSome = true) :
    ∃ h' ∈ seedPerfil datos m, h'.tipo = "usuario" ∧ h'.atributo = "perfil" := by
  rw [seedPerfil]
  cases hpp : datos.perfil with
  | none => rw [hpp] at hp; simp at hp
  | some v => exact agregarHecho_mem_clave _ _

/-- Backward characterisation of the emision block. -/
theorem seedEmision_cases (datos : DatosUsuario) (m : List Hecho) (h' : Hecho)
    (hm : h' ∈ seedEmision datos m) :
    h' ∈ m ∨ (h'.tipo = "emision" ∧ datos.emision_per_capita_kg.isSome = true) := by
  rw [seedEmision] at hm
  cases hp : datos.emision_per_capita_kg with
  | none => rw [hp] at hm; exact Or.inl hm
  | some v =>
    rw [hp] at hm
    rcases agregarHecho_mem_cases _ _ _ hm with h1 | h1
    · exact Or.inl h1
    · exact Or.inr ⟨by rw [h1], rfl⟩

/-- Facts already in memory survive the emision block. -/
theorem seedEmision_mono (datos : DatosUsuario) (m : List Hecho) (h' : Hecho)
    (hm : h' ∈ m) : h' ∈ seedEmision datos m := by
  rw [seedEmision]
  cases datos.emision_per_capita_kg with
  | none => exact hm
  | some v => exact agregarHecho_mem_mono _ _ _ hm

/-- When `emision_per_capita_kg` is present, the emision block leaves
an `(emision, per_capita)` fact in memory. -/
theorem seedEmision_percapita (datos : DatosUsuario) (m : List Hecho)
    (hp : datos.emision_per_capita_kg.isSome = true) :
    ∃ h' ∈ seedEmision datos m, h'.tipo = "emision" ∧ h'.atributo = "per_capita" := by
  rw [seedEmision]
  cases hpp : datos.emision_per_capita_kg with
  | none => rw [hpp] at hp; simp at hp
  | some v => exact agregarHecho_mem_clave _ _

/-- Backward characterisation of the actividades block. -/
theorem seedActividades_cases (datos : DatosUsuario) (m : List Hecho) (h' : Hecho)
    (hm : h' ∈ seedActividades datos m) : h' ∈ m ∨ h'.tipo = "actividad" := by
  rw [seedActividades] at hm
  cases ha : datos.actividades with
  | none => rw [ha] at hm; exact Or.inl hm
  | some acts => rw [ha] at hm; exact foldActividades_cases h' acts m hm

/-- Facts already in memory survive the actividades block. -/
theorem seedActividades_mono (datos : DatosUsuario) (m : List Hecho) (h' : Hecho)
    (hm : h' ∈ m) : h' ∈ seedActividades datos m := by
  rw [seedActividades]
  cases datos.actividades with
  | none => exact hm
  | some acts => exact foldActividades_mono h' acts m hm

/-! ### Claim theorems -/

/-- Claim C1 counterexample: the claim says `evaluar_condicion` is total
and never throws, but evaluating the fallback high-emission threshold
key against a string-valued `per_capita` fact makes the source raise a
`TypeError` (`"alta" > 5000`), modelled here as `.error ()`. -/
theorem evaluarCondicion_lanza_excepcion :
    evaluarCondicion [("emision_per_capita_mayor_que", Value.num 5000)]
      [⟨"emision", "per_capita", Value.str "alta", 1⟩] = .error () := rfl

/-- Claim C1 amended: condition evaluation never throws *provided*
every fact value is py-comparable with the target of each
`_mayor_que` / `_menor_que` key; malformed condition keys and
unresolved lookups still degrade that term to `false` rather than
raising.  Without that proviso the source propagates a `TypeError`
(see the counterexample). -/
theorem evaluarCondicion_total_si_comparable (condicion : CondSpec) (hechos : List Hecho)
    (hcomp : ∀ kv ∈ condicion,
      (pyEndsWith kv.1 "_mayor_que" || pyEndsWith kv.1 "_menor_que") = true →
      ∀ hf ∈ hechos, (pyCmp hf.valor kv.2).isOk = true) :
    (evaluarCondicion condicion hechos).isOk = true := by
  obtain ⟨rs, hrs⟩ := resultadosAux_ok condicion hechos condicion hcomp
  simp only [evaluarCondicion, resultadosCondicion, hrs]
  split
  · rfl
  · split
    · rfl
    · rfl

/-- Claim C1 witness: the same threshold key against a numeric fact value
evaluates without an exception. -/
theorem evaluarCondicion_total_si_comparable_testigo :
    (evaluarCondicion [("emision_per_capita_mayor_que", Value.num 5000)]
      [⟨"emision", "per_capita", Value.num 8500, 1⟩]).isOk = true :=
  evaluarCondicion_total_si_comparable _ _ (by decide)

/-- Claim C2: in a RESOLVE phase over a non-empty applicable list, the
list contains exactly unfired rules whose conditions evaluated true
(built in the stable groups-then-ids traversal order), and the `max`
selection is an applicable rule of maximal priority that is the first
one in that order: every strictly earlier entry has strictly smaller
priority. -/
theorem resolve_prioridad_maxima (reglas : Reglas) (disparadas : List String)
    (hechos : List Hecho) (a : Aplicable) (resto : List Aplicable)
    (hbuscar : buscarReglasAplicables reglas disparadas hechos = .ok (a :: resto)) :
    (∀ x ∈ a :: resto, disparadas.contains x.id = false ∧
        evaluarCondicion x.regla.condiciones hechos = .ok true) ∧
    ∃ l₁ l₂, a :: resto = l₁ ++ pyMax2 (fun r => r.regla.prioridad) a resto :: l₂ ∧
      (∀ y ∈ a :: resto,
        y.regla.prioridad ≤ (pyMax2 (fun r => r.regla.prioridad) a resto).regla.prioridad) ∧
      (∀ y ∈ l₁,
        y.regla.prioridad < (pyMax2 (fun r => r.regla.prioridad) a resto).regla.prioridad) :=
  ⟨buscarReglasAplicables_sound disparadas hechos reglas (a :: resto) hbuscar,
   pyMax2_primero_maximal (fun r => r.regla.prioridad) resto a⟩

/-- Claim C2 witness: with `RA` and `RB` tied at priority 7 and `RC` at 5,
all three applicable, the engine selects `RA`, the first of the tied
rules in traversal order, and e.g. `RB` matches with no higher
priority. -/
theorem resolve_prioridad_maxima_testigo :
    pyMax2 (fun r => r.regla.prioridad) aplRA [aplRB, aplRC] = aplRA ∧
    evaluarCondicion aplRB.regla.condiciones hechosEmpate = .ok true ∧
    aplRB.regla.prioridad ≤
      (pyMax2 (fun r => r.regla.prioridad) aplRA [aplRB, aplRC]).regla.prioridad := by
  have h := resolve_prioridad_maxima reglasEmpate [] hechosEmpate aplRA [aplRB, aplRC] rfl
  obtain ⟨hsound, l₁, l₂, hdec, hmax, hlt⟩ := h
  exact ⟨rfl, (hsound aplRB (by simp)).2, hmax aplRB (by simp)⟩

/-- Claim C3: a run capped at `N` iterations halts with final counter at
most `N` and at most `N` fired conclusions, regardless of the rule set
and seeded memory; hitting the cap is not an error — the conclusions
accumulated in the final state are exactly what `ejecutar_inferencia`
returns. -/
theorem ejecutarInferencia_acotada (reglas : Reglas) (hechos : List Hecho)
    (maxIteraciones : Nat) (st : EstadoMotor)
    (h : cicloInferencia reglas maxIteraciones ⟨hechos, [], [], 0⟩ = .ok st) :
    st.iteracion ≤ maxIteraciones ∧ st.conclusiones.length ≤ maxIteraciones ∧
    ejecutarInferencia reglas hechos maxIteraciones = .ok st.conclusiones := by
  obtain ⟨h1, h2, _⟩ := cicloInferencia_invariante reglas maxIteraciones _ _ h
  refine ⟨by simpa using h1, by simpa using h2, ?_⟩
  rw [ejecutarInferencia, h]
  rfl

/-- Claim C3 witness: the fallback rules over the demo memory stop after
3 of the 10 allowed iterations with 2 conclusions, which are returned. -/
theorem ejecutarInferencia_acotada_testigo :
    stDemo.iteracion ≤ 10 ∧ stDemo.conclusiones.length ≤ 10 ∧
    ejecutarInferencia reglasFallback hechosDemo 10 = .ok stDemo.conclusiones :=
  ejecutarInferencia_acotada reglasFallback hechosDemo 10 stDemo rfl

/-- Claim C4: within one run no rule id fires twice — every MATCH phase
skips ids already in the fired set, and after a successful run the
fired ids are pairwise distinct with exactly one conclusion record per
firing, so each fired rule id contributed exactly one record. -/
theorem ejecutarInferencia_sin_refuego (reglas : Reglas) (hechos : List Hecho)
    (maxIteraciones : Nat) (st : EstadoMotor)
    (h : cicloInferencia reglas maxIteraciones ⟨hechos, [], [], 0⟩ = .ok st) :
    st.disparadas.Nodup ∧ st.conclusiones.length = st.disparadas.length ∧
    (∀ (disp : List String) (apl : List Aplicable),
      buscarReglasAplicables reglas disp st.hechos = .ok apl →
      ∀ x ∈ apl, disp.contains x.id = false) := by
  obtain ⟨_, _, h3⟩ := cicloInferencia_invariante reglas maxIteraciones _ _ h
  have hfin := h3 (by simp)
  exact ⟨hfin.1, hfin.2, fun disp apl hb x hx =>
    (buscarReglasAplicables_sound disp st.hechos reglas apl hb x hx).1⟩

/-- Claim C4 witness: the low-impact run fires only `R_BAJO_IMPACTO`:
one distinct fired id and one conclusion record. -/
theorem ejecutarInferencia_sin_refuego_testigo :
    stEco.disparadas.Nodup ∧ stEco.conclusiones.length = stEco.disparadas.length :=
  ⟨(ejecutarInferencia_sin_refuego reglasFallback hechosEco 10 stEco rfl).1,
   (ejecutarInferencia_sin_refuego reglasFallback hechosEco 10 stEco rfl).2.1⟩

/-- Claim C5 counterexample: the claim says an `"_alt"` key consumed by
its base key contributes no boolean term, but with the base key
satisfied the sibling `"_alt"` key still contributes its own `false`
term (`[true, false]`), flipping the AND evaluation to `false`;
deleting the alt key gives `true`. -/
theorem clave_alt_aporta_termino :
    resultadosCondicion condAlt hechosAlt = .ok [true, false] ∧
    evaluarCondicion condAlt hechosAlt = .ok false ∧
    evaluarCondicion [("nivel_contaminacion", Value.str "Alto")] hechosAlt = .ok true :=
  ⟨rfl, rfl, rfl⟩

/-- Claim C5 amended: the per-key loop evaluates *every* key of the
condition spec except `"operador"`, including `"*_alt"` keys — each
non-`"operador"` key contributes exactly one boolean term, so an
`"_alt"` key alongside its base key adds a term of its own (resolved by
looking the alt key itself up in the facts, hence generally false). -/
theorem resultados_un_termino_por_clave (condicion : CondSpec) (hechos : List Hecho)
    (rs : List Bool) (h : resultadosCondicion condicion hechos = .ok rs) :
    rs.length = (condicion.filter (fun kv => !(kv.1 == "operador"))).length :=
  resultadosAux_longitud condicion hechos condicion rs h

/-- Claim C5 witness: the alt condition spec has two non-`"operador"`
keys and its result list has exactly two entries. -/
theorem resultados_un_termino_por_clave_testigo :
    resultadosCondicion condAlt hechosAlt = .ok [true, false] ∧
    ([true, false] : List Bool).length =
      (condAlt.filter (fun kv => !(kv.1 == "operador"))).length :=
  ⟨rfl, resultados_un_termino_por_clave condAlt hechosAlt [true, false] rfl⟩

/-- Claim C6 counterexample: the claim says a `municipio.tipo` fact exists
only if `tipo_municipio` was present, but seeding a record whose only
present field is `municipio` creates the fact with the default value
`"Desconocido"`. -/
theorem seed_crea_tipo_sin_campo :
    datosSoloMunicipio.tipo_municipio = none ∧
    (⟨"municipio", "tipo", Value.str "Desconocido", 1⟩ : Hecho) ∈
      inicializarHechosDesdeUsuario datosSoloMunicipio [] :=
  ⟨rfl, by decide⟩

/-- Claim C6 amended: after seeding an empty memory, the
`municipio.tipo`, `municipio.nivel_contaminacion` and
`municipio.emision_industria` facts exist iff the `municipio` field is
present (their own fields merely choose between the given value and a
default), while `usuario.perfil` and `emision.per_capita` facts exist
iff their own fields (`perfil`, `emision_per_capita_kg`) are present. -/
theorem inicializarHechos_presencia (datos : DatosUsuario) :
    ((∃ h ∈ inicializarHechosDesdeUsuario datos [],
        h.tipo = "municipio" ∧ h.atributo = "tipo") ↔ datos.municipio.isSome = true) ∧
    ((∃ h ∈ inicializarHechosDesdeUsuario datos [],
        h.tipo = "municipio" ∧ h.atributo = "nivel_contaminacion") ↔
      datos.municipio.isSome = true) ∧
    ((∃ h ∈ inicializarHechosDesdeUsuario datos [],
        h.tipo = "municipio" ∧ h.atributo = "emision_industria") ↔
      datos.municipio.isSome = true) ∧
    ((∃ h ∈ inicializarHechosDesdeUsuario datos [],
        h.tipo = "usuario" ∧ h.atributo = "perfil") ↔ datos.perfil.isSome = true) ∧
    ((∃ h ∈ inicializarHechosDesdeUsuario datos [],
        h.tipo = "emision" ∧ h.atributo = "per_capita") ↔
      datos.emision_per_capita_kg.isSome = true) := by
  have atras : ∀ h' : Hecho, h' ∈ inicializarHechosDesdeUsuario datos [] →
      (h'.tipo = "municipio" ∧ datos.municipio.isSome = true) ∨
      (h'.tipo = "usuario" ∧ datos.perfil.isSome = true) ∨
      (h'.tipo = "emision" ∧ datos.emision_per_capita_kg.isSome = true) ∨
      h'.tipo = "actividad" := by
    intro h' hm
    rw [inicializarHechosDesdeUsuario] at hm
    rcases seedActividades_cases _ _ _ hm with hm | hact
    · rcases seedEmision_cases _ _ _ hm with hm | hem
      · rcases seedPerfil_cases _ _ _ hm with hm | hpf
        · rcases seedMunicipio_cases _ _ _ hm with hm | hmu
          · cases hm
          · exact Or.inl hmu
        · exact Or.inr (Or.inl hpf)
      · exact Or.inr (Or.inr (Or.inl hem))
    · exact Or.inr (Or.inr (Or.inr hact))
  refine ⟨⟨?_, ?_⟩, ⟨?_, ?_⟩, ⟨?_, ?_⟩, ⟨?_, ?_⟩, ⟨?_, ?_⟩⟩
  · rintro ⟨h', hm, ht, _⟩
    rcases atras h' hm with h | h | h | h
    · exact h.2
    · rw [ht] at h; simp at h
    · rw [ht] at h; simp at h
    · rw [ht] at h; simp at h
  · intro hmun
    obtain ⟨h', hm, hh⟩ := seedMunicipio_tipo datos [] hmun
    exact ⟨h', by
      rw [inicializarHechosDesdeUsuario]
      exact seedActividades_mono _ _ _ (seedEmision_mono _ _ _ (seedPerfil_mono _ _ _ hm)),
      hh⟩
  · rintro ⟨h', hm, ht, _⟩
    rcases atras h' hm with h | h | h | h
    · exact h.2
    · rw [ht] at h; simp at h
    · rw [ht] at h; simp at h
    · rw [ht] at h; simp at h
  · intro hmun
    obtain ⟨h', hm, hh⟩ := seedMunicipio_nivel datos [] hmun
    exact ⟨h', by
      rw [inicializarHechosDesdeUsuario]
      exact seedActividades_mono _ _ _ (seedEmision_mono _ _ _ (seedPerfil_mono _ _ _ hm)),
      hh⟩
  · rintro ⟨h', hm, ht, _⟩
    rcases atras h' hm with h | h | h | h
    · exact h.2
    · rw [ht] at h; simp at h
    · rw [ht] at h; simp at h
    · rw [ht] at h; simp at h
  · intro hmun
    obtain ⟨h', hm, hh⟩ := seedMunicipio_emisionInd datos [] hmun
    exact ⟨h', by
      rw [inicializarHechosDesdeUsuario]
      exact seedActividades_mono _ _ _ (seedEmision_mono _ _ _ (seedPerfil_mono _ _ _ hm)),
      hh⟩
  · rintro ⟨h', hm, ht, _⟩
    rcases atras h' hm with h | h | h | h
    · rw [ht] at h; simp at h
    · exact h.2
    · rw [ht] at h; simp at h
    · rw [ht] at h; simp at h
  · intro hperf
    obtain ⟨h', hm, hh⟩ := seedPerfil_perfil datos (seedMunicipio datos []) hperf
    exact ⟨h', by
      rw [inicializarHechosDesdeUsuario]
      exact seedActividades_mono _ _ _ (seedEmision_mono _ _ _ hm), hh⟩
  · rintro ⟨h', hm, ht, _⟩
    rcases atras h' hm with h | h | h | h
    · rw [ht] at h; simp at h
    · rw [ht] at h; simp at h
    · exact h.2
    · rw [ht] at h; simp at h
  · intro hemi
    obtain ⟨h', hm, hh⟩ := seedEmision_percapita datos
      (seedPerfil datos (seedMunicipio datos [])) hemi
    exact ⟨h', by
      rw [inicializarHechosDesdeUsuario]
      exact seedActividades_mono _ _ _ hm, hh⟩

/-- Claim C7: a condition spec whose per-key loop produced no boolean
results evaluates to `false` — under AND (not vacuously true), under
OR, and under any unrecognized combinator — so a rule with no
recognized condition keys can never fire. -/
theorem evaluarCondicion_resultados_vacios (condicion : CondSpec) (hechos : List Hecho)
    (h : resultadosCondicion condicion hechos = .ok []) :
    evaluarCondicion condicion hechos = .ok false := by
  rw [resultadosCondicion] at h
  simp only [evaluarCondicion, resultadosCondicion, h]
  split
  · rfl
  · split
    · rfl
    · rfl

/-- Claim C7 witness: a spec holding only an `operador` entry yields an
empty result list and evaluates to `false`. -/
theorem evaluarCondicion_resultados_vacios_testigo :
    evaluarCondicion [("operador", Value.str "OR")] [] = .ok false :=
  evaluarCondicion_resultados_vacios _ _ rfl

/-- Claim C8: every provider outcome in which loading cannot yield a
usable mapping — a raised exception, `None`, a non-mapping value, or an
empty mapping — silently selects the built-in fallback rule set, and
only a non-empty mapping from the provider replaces it. -/
theorem cargarReglas_recuperacion :
    cargarReglas .lanzaExcepcion = reglasFallback ∧
    cargarReglas .devuelveNone = reglasFallback ∧
    (∀ v, cargarReglas (.devuelveNoMapa v) = reglasFallback) ∧
    (∀ m, m.isEmpty = true → cargarReglas (.devuelveMapa m) = reglasFallback) ∧
    (∀ m, m.isEmpty = false → cargarReglas (.devuelveMapa m) = m) := by
  refine ⟨rfl, rfl, fun v => rfl, fun m hm => ?_, fun m hm => ?_⟩
  · simp [cargarReglas, hm]
  · simp [cargarReglas, hm]

/-- Claim C9: `agregar_hecho` is idempotent on the (type, attribute,
value) triple — adding a fact whose triple (with Python `==` on the
value) is already stored leaves memory entirely unchanged, hence its
size and the stored confidence too, while a fresh triple is appended at
the end. -/
theorem agregarHecho_idempotente (m : List Hecho) (hecho : Hecho) :
    ((∃ h' ∈ m, h'.tipo = hecho.tipo ∧ h'.atributo = hecho.atributo ∧
        pyEq h'.valor hecho.valor = true) → agregarHecho m hecho = m) ∧
    (¬(∃ h' ∈ m, h'.tipo = hecho.tipo ∧ h'.atributo = hecho.atributo ∧
        pyEq h'.valor hecho.valor = true) → agregarHecho m hecho = m ++ [hecho]) := by
  have hiff : (m.any fun h => h.tipo == hecho.tipo && h.atributo == hecho.atributo &&
      pyEq h.valor hecho.valor) = true ↔
      ∃ h' ∈ m, h'.tipo = hecho.tipo ∧ h'.atributo = hecho.atributo ∧
        pyEq h'.valor hecho.valor = true := by
    simp [List.any_eq_true, Bool.and_eq_true, beq_iff_eq, and_assoc]
  constructor
  · intro hex
    rw [agregarHecho, if_pos (hiff.mpr hex)]
  · intro hex
    rw [agregarHecho, if_neg (fun hc => hex (hiff.mp hc))]

/-- Claim C9 witness: re-adding the stored triple with a different
confidence is a no-op (original confidence 1/2 intact), while a fact
with a fresh attribute is appended. -/
theorem agregarHecho_idempotente_testigo :
    agregarHecho [⟨"emision", "per_capita", Value.num 8500, 1/2⟩]
        ⟨"emision", "per_capita", Value.num 8500, 1⟩ =
      [⟨"emision", "per_capita", Value.num 8500, 1/2⟩] ∧
    agregarHecho [⟨"emision", "per_capita", Value.num 8500, 1/2⟩]
        ⟨"usuario", "perfil", Value.str "X", 1⟩ =
      [⟨"emision", "per_capita", Value.num 8500, 1/2⟩,
       ⟨"usuario", "perfil", Value.str "X", 1⟩] :=
  ⟨(agregarHecho_idempotente _ _).1 (by decide),
   (agregarHecho_idempotente _ _).2 (by decide)⟩

/-- Claim C10: the `"_alt"` fallback branch is dead code — it re-looks-up
the same base key against the same facts, so when the primary lookup is
absent the re-lookup is absent too and the term is `false` with or
without an `"_alt"` sibling: `evaluar_condicion` is extensionally equal
to the same function with the alt branch deleted. -/
theorem evaluarCondicion_alt_inerte (condicion : CondSpec) (hechos : List Hecho) :
    evaluarCondicion condicion hechos = evaluarCondicionSinAlt condicion hechos := by
  simp only [evaluarCondicion, evaluarCondicionSinAlt, resultadosCondicion,
    resultadosAux_sin_alt]

/-- Claim C8 witness: an empty mapping from the provider selects the
fallback set; the non-empty tie-demo mapping is kept as delivered. -/
theorem cargarReglas_recuperacion_testigo :
    cargarReglas (.devuelveMapa []) = reglasFallback ∧
    cargarReglas (.devuelveMapa reglasEmpate) = reglasEmpate :=
  ⟨cargarReglas_recuperacion.2.2.2.1 [] rfl,
   cargarReglas_recuperacion.2.2.2.2 reglasEmpate rfl⟩
